import Mathlib

/-!
# Weather ETL pipeline: a shallow embedding

This file embeds the core of the weather ETL pipeline
(`src/etl/ingest_weather.py`, with `src/etl/oop_weather.py` implementing the
same logic class-based) and proves the testable properties stated for it.

* `fetch_city_weather` — Extract: one HTTP fetch per city; `None` on a
  non-200 status or an unparseable body, plus the printed diagnostics.
* `transform_to_daily` — Transform: pandas groupby on the calendar date of
  each timestamp, arithmetic mean of the temperatures per date.
* `insert_daily_weather` / `loadStep` — Load: per-record
  `INSERT ... ON CONFLICT (date, city) DO UPDATE SET temperature = EXCLUDED.temperature`
  against the `weather_daily` table, one commit at the end, then
  `conn.close()`; there is no try/finally around the load section.
* `runPipeline` — the `main()` orchestration across the configured cities.

Floating-point temperatures are modelled as rationals (`Rat`); the pandas
mean is `sum / count`, exactly as the spec's numeric semantics describes.
Tables are modelled as ordered lists of rows; the real table carries a
unique constraint on `(date, city)`, which appears here as the
`countKey ≤ 1` invariant.
-/

namespace WeatherETL

/-- A parsed timestamp as produced by `pd.to_datetime` on the API's ISO-8601
strings: a calendar day (as a day index), an hour of day, and the offset the
string carried. `.dt.date` truncates to the day, ignoring clock time and
offset (no timezone conversion). -/
structure Timestamp where
  day : Int
  hour : Nat
  offsetMinutes : Int
deriving DecidableEq

/-- The `hourly` object of the API's JSON body: parallel arrays `time` and
`temperature_2m`. (`pd.DataFrame` construction requires the two arrays to
have equal length.) -/
structure RawData where
  time : List Timestamp
  temperature_2m : List Rat
deriving DecidableEq

/-- A value returned by `response.json()`: either it contains the expected
`hourly` arrays, or it is some other JSON body (which `fetch_city_weather`
returns unchecked). -/
inductive JsonVal where
  | withHourly (d : RawData)
  | withoutHourly (body : String)
deriving DecidableEq

/-- The HTTP response object seen by `fetch_city_weather`: `status_code`,
`text`, and the result of `response.json()` (`none` models `ValueError`
being raised, i.e. a body that is not valid JSON). -/
structure APIResponse where
  status_code : Nat
  text : String
  parsed : Option JsonVal

/-- A diagnostic printed by `fetch_city_weather`: either
`"API error for {city}: {response.text}"` or
`"Failed to parse JSON for {city}. Response: {response.text[:300]}"`. -/
inductive LogMsg where
  | apiError (city : String) (detail : String)
  | parseError (city : String) (sample : String)
deriving DecidableEq

/-- The city a diagnostic message names. -/
def LogMsg.city : LogMsg → String
  | .apiError c _ => c
  | .parseError c _ => c

/-- The diagnostic detail a message carries (the response text, truncated to
300 characters in the parse-error case, as in the source). -/
def LogMsg.detail : LogMsg → String
  | .apiError _ d => d
  | .parseError _ s => s

theorem LogMsg.city_apiError (c d : String) : (LogMsg.apiError c d).city = c := rfl

theorem LogMsg.city_parseError (c s : String) : (LogMsg.parseError c s).city = c := rfl

theorem LogMsg.detail_apiError (c d : String) : (LogMsg.apiError c d).detail = d := rfl

theorem LogMsg.detail_parseError (c s : String) : (LogMsg.parseError c s).detail = s := rfl

/-- `fetch_city_weather(city, coords)` from `ingest_weather.py` (lines
18–39; `oop_weather.py` lines 46–76 is the same logic): if
`response.status_code != 200`, print the API error and return `None`;
otherwise return `response.json()`, printing and returning `None` if
parsing raises `ValueError`. Returns the Python return value together with
the printed diagnostics. -/
def fetch_city_weather (city : String) (resp : APIResponse) :
    Option JsonVal × List LogMsg :=
  if resp.status_code ≠ 200 then
    (none, [.apiError city resp.text])
  else
    match resp.parsed with
    | some j => (some j, [])
    | none => (none, [.parseError city (resp.text.take 300)])

/-- `df["datetime"].dt.date`: truncate a timestamp to its calendar day — the
clock time and the offset as given are dropped, with no timezone
conversion. -/
def truncToDate (ts : Timestamp) : Int := ts.day

/-- One row of the `weather_daily` table / of the transformed daily frame:
columns `date`, `temp`(erature), `city`. -/
structure DailyRow where
  date : Int
  temp : Rat
  city : String
deriving DecidableEq

/-- The mean temperature of one date's group of readings, as pandas
`groupby("date").agg({"temp": "mean"})` computes it: the sum of the
temperatures whose timestamp truncates to `dt`, divided by their count. -/
def dayMean (readings : List (Timestamp × Rat)) (dt : Int) : Rat :=
  ((readings.filter fun p => truncToDate p.1 == dt).map Prod.snd).sum /
    (((readings.filter fun p => truncToDate p.1 == dt).length : Nat) : Rat)

/-- `transform_to_daily(city, data)` from `ingest_weather.py` (lines 42–59;
`hourly_to_daily` in `oop_weather.py` is identical): build the frame from
the parallel `hourly` arrays (readings = `time` zipped with
`temperature_2m`; `pd.DataFrame` requires equal lengths), truncate each
timestamp to its date, group by date (pandas sorts the group keys
ascending; the distinct dates are the sorted dedup), and emit one row per
date with the group's mean temperature and the first value of the constant
`city` column, which is `city`. -/
def transform_to_daily (city : String) (d : RawData) : List DailyRow :=
  (List.insertionSort (· ≤ ·)
      (((d.time.zip d.temperature_2m).map fun p => truncToDate p.1).dedup)).map
    fun dt =>
      { date := dt, temp := dayMean (d.time.zip d.temperature_2m) dt, city := city }

/-- The stored `weather_daily` table, as its ordered list of rows. -/
abbrev Table := List DailyRow

/-- Does a row carry the key `(dt, c)`? -/
def keyMatch (dt : Int) (c : String) (row : DailyRow) : Bool :=
  row.date == dt && row.city == c

/-- `DO UPDATE SET temperature = EXCLUDED.temperature` applied to one stored
row: if it conflicts with the incoming row `r` on `(date, city)`, its
temperature becomes `r.temp`; otherwise it is untouched. -/
def updTemp (r : DailyRow) (x : DailyRow) : DailyRow :=
  if keyMatch r.date r.city x then { x with temp := r.temp } else x

/-- One execution of
`INSERT INTO weather_daily (date, temperature, city) VALUES (%s, %s, %s)
ON CONFLICT (date, city) DO UPDATE SET temperature = EXCLUDED.temperature`:
if a stored row conflicts on `(date, city)`, its temperature is overwritten
with the excluded (incoming) value; otherwise the row is inserted. -/
def upsertRow (t : Table) (r : DailyRow) : Table :=
  if t.any (keyMatch r.date r.city) then t.map (updTemp r) else t ++ [r]

/-- The table effect of `execute_batch(cur, sql, records, page_size=50)`:
the statement is executed once per record, in record order (paging changes
round trips only, not semantics). -/
def applyBatch (t : Table) (batch : List DailyRow) : Table :=
  batch.foldl upsertRow t

/-- `insert_daily_weather(conn, df)` from `ingest_weather.py` lines 62–75
(`WeatherRepository.insert_daily_weather` is the same): run the upsert
statement for every record, commit, close the cursor. The function body has
no `return` statement, so its Python return value is `None`; the second
component models that returned value (`none`, never an integer count). -/
def insert_daily_weather (t : Table) (batch : List DailyRow) : Table × Option Nat :=
  (applyBatch t batch, none)

/-- Outcome of the load section: the committed table state, how many rows
were applied and committed, the Python value `insert_daily_weather`
returned, whether `conn.commit()` ran, whether `conn.close()` ran, and
whether an exception propagated. -/
structure LoadOutcome where
  table : Table
  rowsCommitted : Nat
  retValue : Option Nat
  committed : Bool
  connClosed : Bool
  errored : Bool

/-- The load section of `main()` (`ingest_weather.py` lines 101–108):
`conn = get_db_connection(config); insert_daily_weather(conn, final_df);
conn.close()`. `failAt = some i` with `i < batch.length` models the
database raising while the `i`-th record's statement executes: the
exception propagates out of `insert_daily_weather` and out of `main` —
`conn.commit()` is never reached, so nothing is committed, and since there
is no try/finally, `conn.close()` is never reached either. -/
def loadStep (t : Table) (batch : List DailyRow) (failAt : Option Nat) : LoadOutcome :=
  match failAt with
  | some i =>
    if i < batch.length then
      { table := t, rowsCommitted := 0, retValue := none,
        committed := false, connClosed := false, errored := true }
    else
      { table := (insert_daily_weather t batch).1, rowsCommitted := batch.length,
        retValue := (insert_daily_weather t batch).2,
        committed := true, connClosed := true, errored := false }
  | none =>
      { table := (insert_daily_weather t batch).1, rowsCommitted := batch.length,
        retValue := (insert_daily_weather t batch).2,
        committed := true, connClosed := true, errored := false }

/-- Terminal state of a run: `main()` returning normally is `completed n`
with `n` the rows written; an uncaught exception is `failed`. -/
inductive RunStatus where
  | completed (rowsWritten : Nat)
  | failed
deriving DecidableEq

/-- Did the run complete (return normally)? -/
def RunStatus.isCompleted : RunStatus → Bool
  | .completed _ => true
  | .failed => false

/-- The observable outcome of one `main()` run: terminal status, the list
of batches passed to `insert_daily_weather` (one entry per call), and the
committed table state afterwards. -/
structure RunResult where
  status : RunStatus
  upsertCalls : List (List DailyRow)
  table : Table

/-- The Extract+Transform loop of `main()` (`ingest_weather.py` lines
85–90): for each city, fetch; `None` → `continue`; a payload with the
expected `hourly` arrays → append `transform_to_daily`'s frame. A payload
without them makes `transform_to_daily` raise `KeyError`, which nothing
catches (`none` result: the run dies before LOAD). `f` gives each city's
fetch result. -/
def collectDaily : List String → (String → Option JsonVal) → Option (List (List DailyRow))
  | [], _ => some []
  | c :: rest, f =>
    match f c with
    | none => collectDaily rest f
    | some (.withHourly d) => (collectDaily rest f).map (transform_to_daily c d :: ·)
    | some (.withoutHourly _) => none

/-- `main()` from `ingest_weather.py` (lines 78–108;
`WeatherETLPipeline.run` is the same): run the Extract+Transform loop; if
`all_daily` is empty, print and return (completed, zero rows, no database
work); otherwise concatenate the frames and run the load section. `t` is
the stored table before the run, `failAt` the database failure model of
`loadStep`. -/
def runPipeline (cities : List String) (f : String → Option JsonVal)
    (t : Table) (failAt : Option Nat) : RunResult :=
  match collectDaily cities f with
  | none => { status := .failed, upsertCalls := [], table := t }
  | some all_daily =>
    if all_daily.isEmpty then
      { status := .completed 0, upsertCalls := [], table := t }
    else
      let final := all_daily.flatten
      let o := loadStep t final failAt
      if o.errored then
        { status := .failed, upsertCalls := [final], table := o.table }
      else
        { status := .completed o.rowsCommitted, upsertCalls := [final], table := o.table }

/-- First stored row with key `(dt, c)`, if any (its temperature). -/
def lookupRow (t : Table) (dt : Int) (c : String) : Option Rat :=
  (t.find? (keyMatch dt c)).map (·.temp)

/-- Number of stored rows with key `(dt, c)`. -/
def countKey (t : Table) (dt : Int) (c : String) : Nat :=
  t.countP (keyMatch dt c)

/-- Is some stored row keyed `(dt, c)`? -/
def keyPresent (t : Table) (dt : Int) (c : String) : Bool :=
  t.any (keyMatch dt c)

/-- The temperature of the last record in a batch carrying key `(dt, c)`,
if any: the value that ends up stored for that key after the batch. -/
def lastWrite : List DailyRow → Int → String → Option Rat
  | [], _, _ => none
  | r :: rest, dt, c =>
    match lastWrite rest dt c with
    | some v => some v
    | none => if keyMatch dt c r then some r.temp else none

/-! ## Facts about the upsert model -/

theorem keyMatch_iff {dt : Int} {c : String} {row : DailyRow} :
    keyMatch dt c row = true ↔ row.date = dt ∧ row.city = c := by
  simp [keyMatch]

theorem keyMatch_self (r : DailyRow) : keyMatch r.date r.city r = true := by
  simp [keyMatch]

theorem updTemp_date (r x : DailyRow) : (updTemp r x).date = x.date := by
  unfold updTemp; split <;> rfl

theorem updTemp_city (r x : DailyRow) : (updTemp r x).city = x.city := by
  unfold updTemp; split <;> rfl

theorem keyMatch_updTemp (dt : Int) (c : String) (r x : DailyRow) :
    keyMatch dt c (updTemp r x) = keyMatch dt c x := by
  simp [keyMatch, updTemp_date, updTemp_city]

theorem keyMatch_comp_updTemp (dt : Int) (c : String) (r : DailyRow) :
    keyMatch dt c ∘ updTemp r = keyMatch dt c := by
  funext x; exact keyMatch_updTemp dt c r x

/-- Looking up the upserted row's own key always finds its new temperature. -/
theorem lookupRow_upsertRow_self (t : Table) (r : DailyRow) :
    lookupRow (upsertRow t r) r.date r.city = some r.temp := by
  unfold upsertRow
  split
  case isTrue h =>
    obtain ⟨x, hx, hpx⟩ := List.any_eq_true.mp h
    unfold lookupRow
    rw [List.find?_map, keyMatch_comp_updTemp]
    obtain ⟨y, hy⟩ := Option.isSome_iff_exists.mp
      (List.find?_isSome.mpr ⟨x, hx, hpx⟩)
    rw [hy]
    have hpy : keyMatch r.date r.city y = true := List.find?_some hy
    simp [updTemp, hpy]
  case isFalse h =>
    unfold lookupRow
    rw [List.find?_append]
    have hnone : t.find? (keyMatch r.date r.city) = none :=
      List.find?_eq_none.mpr (fun x hx hpx => h (List.any_eq_true.mpr ⟨x, hx, hpx⟩))
    rw [hnone]
    simp [keyMatch_self]

/-- Upserting a row does not disturb the stored value at any other key. -/
theorem lookupRow_upsertRow_other (t : Table) (r : DailyRow) (dt : Int) (c : String)
    (h : ¬(dt = r.date ∧ c = r.city)) :
    lookupRow (upsertRow t r) dt c = lookupRow t dt c := by
  unfold upsertRow
  split
  case isTrue _ =>
    unfold lookupRow
    rw [List.find?_map, keyMatch_comp_updTemp]
    cases hfind : t.find? (keyMatch dt c) with
    | none => rfl
    | some y =>
      have hpy := keyMatch_iff.mp (List.find?_some hfind)
      have : keyMatch r.date r.city y = false := by
        cases hkb : keyMatch r.date r.city y with
        | false => rfl
        | true =>
          obtain ⟨h1, h2⟩ := keyMatch_iff.mp hkb
          exact absurd ⟨by rw [← hpy.1, h1], by rw [← hpy.2, h2]⟩ h
      simp [updTemp, this]
  case isFalse _ =>
    unfold lookupRow
    rw [List.find?_append]
    have hr : keyMatch dt c r = false := by
      cases hkb : keyMatch dt c r with
      | false => rfl
      | true =>
        obtain ⟨h1, h2⟩ := keyMatch_iff.mp hkb
        exact absurd ⟨h1.symm, h2.symm⟩ h
    simp [hr]

/-- The stored value after a whole batch: the last write to the key wins;
keys the batch never writes keep their prior value. -/
theorem lookupRow_applyBatch (batch : List DailyRow) (t : Table) (dt : Int) (c : String) :
    lookupRow (applyBatch t batch) dt c =
      match lastWrite batch dt c with
      | some v => some v
      | none => lookupRow t dt c := by
  induction batch generalizing t with
  | nil => rfl
  | cons r rest ih =>
    have hstep : applyBatch t (r :: rest) = applyBatch (upsertRow t r) rest := rfl
    rw [hstep, ih]
    cases hlw : lastWrite rest dt c with
    | some v => simp [lastWrite, hlw]
    | none =>
      simp only [lastWrite, hlw]
      by_cases hk : keyMatch dt c r = true
      · obtain ⟨h1, h2⟩ := keyMatch_iff.mp hk
        subst h1; subst h2
        rw [lookupRow_upsertRow_self]
        simp [hk]
      · have hk' : keyMatch dt c r = false := by simpa using hk
        simp only [hk', Bool.false_eq_true, if_false]
        exact lookupRow_upsertRow_other t r dt c
          (fun hand => hk (keyMatch_iff.mpr ⟨hand.1.symm, hand.2.symm⟩))

theorem keyPresent_upsertRow_of (t : Table) (r : DailyRow) (dt : Int) (c : String)
    (h : keyPresent t dt c = true) : keyPresent (upsertRow t r) dt c = true := by
  unfold keyPresent at h ⊢
  unfold upsertRow
  split
  · rw [List.any_map, keyMatch_comp_updTemp]; exact h
  · rw [List.any_append, h, Bool.true_or]

theorem keyPresent_upsertRow_self (t : Table) (r : DailyRow) :
    keyPresent (upsertRow t r) r.date r.city = true := by
  unfold keyPresent upsertRow
  split
  case isTrue h => rw [List.any_map, keyMatch_comp_updTemp]; exact h
  case isFalse _ => simp [List.any_append, keyMatch_self]

theorem keyPresent_applyBatch_of (batch : List DailyRow) (t : Table) (dt : Int) (c : String)
    (h : keyPresent t dt c = true) : keyPresent (applyBatch t batch) dt c = true := by
  induction batch generalizing t with
  | nil => exact h
  | cons r rest ih => exact ih (upsertRow t r) (keyPresent_upsertRow_of t r dt c h)

/-- Every key a batch writes is present in the table afterwards. -/
theorem keyPresent_applyBatch_of_mem (batch : List DailyRow) (t : Table)
    (r : DailyRow) (hr : r ∈ batch) :
    keyPresent (applyBatch t batch) r.date r.city = true := by
  induction batch generalizing t with
  | nil => cases hr
  | cons s rest ih =>
    rcases List.mem_cons.mp hr with rfl | hmem
    · exact keyPresent_applyBatch_of rest (upsertRow t r) r.date r.city
        (keyPresent_upsertRow_self t r)
    · exact ih (upsertRow t s) hmem

theorem length_upsertRow_present (t : Table) (r : DailyRow)
    (h : keyPresent t r.date r.city = true) :
    (upsertRow t r).length = t.length := by
  unfold keyPresent at h
  unfold upsertRow
  rw [if_pos h]
  exact List.length_map t (updTemp r)

theorem length_upsertRow_absent (t : Table) (r : DailyRow)
    (h : keyPresent t r.date r.city = false) :
    (upsertRow t r).length = t.length + 1 := by
  unfold keyPresent at h
  unfold upsertRow
  rw [if_neg (by simp [h])]
  simp

/-- A batch written entirely onto keys already present only updates in
place: the row count does not change. -/
theorem length_applyBatch_present (batch : List DailyRow) (t : Table)
    (h : ∀ r ∈ batch, keyPresent t r.date r.city = true) :
    (applyBatch t batch).length = t.length := by
  induction batch generalizing t with
  | nil => rfl
  | cons r rest ih =>
    have h1 : keyPresent t r.date r.city = true := h r (List.mem_cons_self r rest)
    have hstep : applyBatch t (r :: rest) = applyBatch (upsertRow t r) rest := rfl
    rw [hstep, ih (upsertRow t r)
      (fun s hs => keyPresent_upsertRow_of t r s.date s.city (h s (List.mem_cons_of_mem r hs)))]
    exact length_upsertRow_present t r h1

theorem countKey_upsertRow_present (t : Table) (r : DailyRow) (dt : Int) (c : String)
    (h : keyPresent t r.date r.city = true) :
    countKey (upsertRow t r) dt c = countKey t dt c := by
  unfold keyPresent at h
  unfold countKey upsertRow
  rw [if_pos h, List.countP_map, keyMatch_comp_updTemp]

theorem countKey_upsertRow_absent (t : Table) (r : DailyRow) (dt : Int) (c : String)
    (h : keyPresent t r.date r.city = false) :
    countKey (upsertRow t r) dt c =
      countKey t dt c + (if keyMatch dt c r then 1 else 0) := by
  unfold keyPresent at h
  unfold countKey upsertRow
  rw [if_neg (by simp [h]), List.countP_append]
  simp [List.countP_cons]

theorem keyPresent_eq_false_iff (t : Table) (dt : Int) (c : String) :
    keyPresent t dt c = false ↔ countKey t dt c = 0 := by
  unfold keyPresent countKey
  rw [List.countP_eq_zero]
  simp [List.any_eq_true]

/-- The unique constraint survives one upsert statement: a table with at
most one row per `(date, city)` still has at most one after it. -/
theorem countKey_le_one_upsertRow (t : Table) (r : DailyRow)
    (h : ∀ dt c, countKey t dt c ≤ 1) :
    ∀ dt c, countKey (upsertRow t r) dt c ≤ 1 := by
  intro dt c
  cases hp : keyPresent t r.date r.city with
  | true => rw [countKey_upsertRow_present t r dt c hp]; exact h dt c
  | false =>
    rw [countKey_upsertRow_absent t r dt c hp]
    by_cases hk : keyMatch dt c r = true
    · obtain ⟨h1, h2⟩ := keyMatch_iff.mp hk
      have h0 : countKey t dt c = 0 := by
        rw [← h1, ← h2]
        exact (keyPresent_eq_false_iff t r.date r.city).mp hp
      simp [hk, h0]
    · have hk' : keyMatch dt c r = false := by simpa using hk
      simp [hk']
      exact h dt c

theorem countKey_le_one_applyBatch (batch : List DailyRow) (t : Table)
    (h : ∀ dt c, countKey t dt c ≤ 1) :
    ∀ dt c, countKey (applyBatch t batch) dt c ≤ 1 := by
  induction batch generalizing t with
  | nil => exact h
  | cons r rest ih => exact ih (upsertRow t r) (countKey_le_one_upsertRow t r h)

/-! ## Claims about the store (Load step) -/

/-- C1. Calling the upsert twice with the identical batch leaves the stored
`weather_daily` table in the same state as calling it once: the row count
is the same, and the value stored under every `(date, city)` key is the
same. (`insert_daily_weather` commits `applyBatch`'s table.) -/
theorem upsert_idempotent (t : Table) (batch : List DailyRow) :
    ((insert_daily_weather (insert_daily_weather t batch).1 batch).1.length
        = (insert_daily_weather t batch).1.length) ∧
    (∀ dt c, lookupRow (insert_daily_weather (insert_daily_weather t batch).1 batch).1 dt c
        = lookupRow (insert_daily_weather t batch).1 dt c) := by
  constructor
  · exact length_applyBatch_present batch (applyBatch t batch)
      (fun r hr => keyPresent_applyBatch_of_mem batch t r hr)
  · intro dt c
    rw [show (insert_daily_weather (insert_daily_weather t batch).1 batch).1
        = applyBatch (applyBatch t batch) batch from rfl]
    rw [show (insert_daily_weather t batch).1 = applyBatch t batch from rfl]
    rw [lookupRow_applyBatch, lookupRow_applyBatch]
    cases lastWrite batch dt c <;> rfl

/-- C3. After an upsert completes the table still has at most one row per
`(date, city)` key (given the unique constraint held before, as the real
table guarantees); a single upserted row whose key is already present
overwrites that row's temperature in place (same row count, new value), and
one with a fresh key inserts exactly one row carrying its value. -/
theorem upsert_key_unique (t : Table) (batch : List DailyRow)
    (hinv : ∀ dt c, countKey t dt c ≤ 1) :
    (∀ dt c, countKey (insert_daily_weather t batch).1 dt c ≤ 1) ∧
    (∀ r : DailyRow, keyPresent t r.date r.city = true →
      (upsertRow t r).length = t.length ∧
        lookupRow (upsertRow t r) r.date r.city = some r.temp) ∧
    (∀ r : DailyRow, keyPresent t r.date r.city = false →
      (upsertRow t r).length = t.length + 1 ∧
        lookupRow (upsertRow t r) r.date r.city = some r.temp) := by
  refine ⟨countKey_le_one_applyBatch batch t hinv, ?_, ?_⟩
  · exact fun r hr => ⟨length_upsertRow_present t r hr, lookupRow_upsertRow_self t r⟩
  · exact fun r hr => ⟨length_upsertRow_absent t r hr, lookupRow_upsertRow_self t r⟩

/-- C3 witness: the empty table satisfies the unique constraint, and the
theorem applies to it with an arbitrary batch. -/
theorem upsert_key_unique_witness :
    countKey (insert_daily_weather []
      [{ date := 0, temp := 20, city := "Accra" }]).1 0 "Accra" ≤ 1 :=
  (upsert_key_unique [] [{ date := 0, temp := 20, city := "Accra" }]
    (fun dt c => by simp [countKey])).1 0 "Accra"

/-- A sample stored/incoming row used by concrete instances below. -/
def accraRow : DailyRow := { date := 0, temp := 20, city := "Accra" }

/-- C8 counterexample. The claim says the load step returns the count of
rows applied; but `insert_daily_weather` has no `return` statement, so on
the one-row batch it returns Python `None`, not `1`. -/
theorem upsert_return_count_cex :
    ¬((loadStep [] [accraRow] none).retValue = some [accraRow].length) := by
  intro h
  simp [loadStep, insert_daily_weather, accraRow] at h

/-- C8 (amended). On success the load step applies and commits exactly one
row per batch record (`rowsCommitted = batch.length`), and a database error
partway through the batch raises (the exception propagates) with nothing
committed; but `insert_daily_weather`'s Python return value is `None` —
the count of rows applied is never returned to the caller. -/
theorem upsert_rows_applied (t : Table) (batch : List DailyRow) :
    (insert_daily_weather t batch).2 = none ∧
    ((loadStep t batch none).rowsCommitted = batch.length ∧
      (loadStep t batch none).retValue = none) ∧
    (∀ i, i < batch.length →
      (loadStep t batch (some i)).errored = true ∧
      (loadStep t batch (some i)).rowsCommitted = 0) := by
  refine ⟨rfl, ⟨rfl, rfl⟩, fun i hi => ?_⟩
  simp [loadStep, if_pos hi]

/-- C8 witness: on the singleton batch the successful load commits one row
and returns `None`; failing at record 0 errors with nothing committed. -/
theorem upsert_rows_applied_witness :
    (loadStep [] [accraRow] (some 0)).errored = true ∧
    (loadStep [] [accraRow] (some 0)).rowsCommitted = 0 :=
  (upsert_rows_applied [] [accraRow]).2.2 0 (by decide)

/-- C9 counterexample. The claim says the connection is released (closed)
regardless of whether the load step commits or errors; but when the
database raises while the batch executes, `main` has no try/finally, so
`conn.close()` is never reached. -/
theorem load_conn_release_cex :
    (loadStep [] [accraRow] (some 0)).errored = true ∧
    (loadStep [] [accraRow] (some 0)).connClosed = false := by
  constructor <;> rfl

/-- C9 (amended). The load step is atomic — on a normal exit the whole
batch is committed and the connection closed; on an error partway through
the batch nothing is committed (the single `conn.commit()` is never
reached) — but on the error path the connection is *not* closed: the run
dies with the connection open on an uncommitted (aborted) transaction. -/
theorem load_transaction_behavior (t : Table) (batch : List DailyRow) (failAt : Option Nat) :
    ((loadStep t batch failAt).errored = false →
      (loadStep t batch failAt).table = (insert_daily_weather t batch).1 ∧
      (loadStep t batch failAt).committed = true ∧
      (loadStep t batch failAt).connClosed = true) ∧
    ((loadStep t batch failAt).errored = true →
      (loadStep t batch failAt).table = t ∧
      (loadStep t batch failAt).committed = false ∧
      (loadStep t batch failAt).connClosed = false) := by
  cases failAt with
  | none => exact ⟨fun _ => ⟨rfl, rfl, rfl⟩, fun h => by simp [loadStep] at h⟩
  | some i =>
    by_cases hi : i < batch.length
    · refine ⟨fun h => ?_, fun _ => ?_⟩
      · simp [loadStep, if_pos hi] at h
      · simp [loadStep, if_pos hi]
    · refine ⟨fun _ => ?_, fun h => ?_⟩
      · simp [loadStep, if_neg hi]
      · simp [loadStep, if_neg hi] at h

/-- C9 witness: the successful one-row load commits and closes the
connection. -/
theorem load_transaction_behavior_witness :
    (loadStep [] [accraRow] none).committed = true ∧
    (loadStep [] [accraRow] none).connClosed = true :=
  ⟨((load_transaction_behavior [] [accraRow] none).1 rfl).2.1,
   ((load_transaction_behavior [] [accraRow] none).1 rfl).2.2⟩

/-! ## Facts about the Transform step -/

theorem dedup_const {a : Int} {l : List Int} (hne : l ≠ []) (h : ∀ x ∈ l, x = a) :
    l.dedup = [a] := by
  induction l with
  | nil => exact absurd rfl hne
  | cons x t ih =>
    have hx : x = a := h x (List.mem_cons_self x t)
    cases t with
    | nil => subst hx; simp
    | cons y t2 =>
      have hmem : x ∈ y :: t2 := by
        rw [hx, ← h y (by simp)]
        exact List.mem_cons_self y t2
      rw [List.dedup_cons_of_mem hmem]
      exact ih (by simp) (fun z hz => h z (List.mem_cons_of_mem x hz))

theorem insertionSort_singleton (a : Int) :
    List.insertionSort (· ≤ ·) [a] = [a] := by
  simp [List.insertionSort, List.orderedInsert]

/-- A duplicate-free list whose elements are exactly two distinct values
has length two. -/
theorem nodup_pair_length {l : List Int} {a b : Int} (hnd : l.Nodup) (hab : a ≠ b)
    (hsub : ∀ x ∈ l, x = a ∨ x = b) (ha : a ∈ l) (hb : b ∈ l) : l.length = 2 := by
  have hfs : l.toFinset = {a, b} := by
    ext x
    simp only [List.mem_toFinset, Finset.mem_insert, Finset.mem_singleton]
    exact ⟨fun hx => hsub x hx, by rintro (rfl | rfl) <;> assumption⟩
  have hcard := List.toFinset_card_of_nodup hnd
  rw [hfs, Finset.card_pair hab] at hcard
  exact hcard.symm

/-! ## Claims about the Transform step -/

/-- C2. On a non-empty series of readings all falling on calendar date
`day0`, the transform returns exactly one row: date `day0`, the given city,
and temperature the arithmetic mean — the sum of the input temperatures
divided by their count, as an exact (unrounded) value. -/
theorem transform_single_day (city : String) (d : RawData) (day0 : Int)
    (hlen : d.time.length = d.temperature_2m.length)
    (hne : d.time ≠ [])
    (hday : ∀ ts ∈ d.time, truncToDate ts = day0) :
    transform_to_daily city d =
      [{ date := day0,
         temp := d.temperature_2m.sum / ((d.temperature_2m.length : Nat) : Rat),
         city := city }] := by
  unfold transform_to_daily
  have hmapfst : (d.time.zip d.temperature_2m).map Prod.fst = d.time :=
    List.map_fst_zip _ _ (le_of_eq hlen)
  have hlenr : (d.time.zip d.temperature_2m).length = d.temperature_2m.length := by
    rw [List.length_zip, hlen, min_self]
  have hconst : ∀ x ∈ (d.time.zip d.temperature_2m).map fun p => truncToDate p.1, x = day0 := by
    intro x hx
    obtain ⟨p, hp, rfl⟩ := List.mem_map.mp hx
    exact hday p.1 (List.of_mem_zip hp).1
  have hne2 : ((d.time.zip d.temperature_2m).map fun p => truncToDate p.1) ≠ [] := by
    intro h0
    have h1 := congrArg List.length h0
    rw [List.length_map, hlenr, ← hlen, List.length_nil] at h1
    exact hne (List.length_eq_zero.mp h1)
  rw [dedup_const hne2 hconst, insertionSort_singleton]
  simp only [List.map_cons, List.map_nil]
  have hfilter : ((d.time.zip d.temperature_2m).filter fun p => truncToDate p.1 == day0)
      = d.time.zip d.temperature_2m := by
    apply List.filter_eq_self.mpr
    intro p hp
    exact beq_iff_eq.mpr (hday p.1 (List.of_mem_zip hp).1)
  have hsnd : (d.time.zip d.temperature_2m).map Prod.snd = d.temperature_2m :=
    List.map_snd_zip _ _ (le_of_eq hlen.symm)
  rw [show dayMean (d.time.zip d.temperature_2m) day0
      = d.temperature_2m.sum / ((d.temperature_2m.length : Nat) : Rat) by
    unfold dayMean
    rw [hfilter, hsnd, hlenr]]

/-- C2 witness: two same-day readings of 25 degrees for Kumasi produce the
single row with their mean. -/
theorem transform_single_day_witness :
    transform_to_daily "Kumasi"
        { time := [⟨0, 0, 0⟩, ⟨0, 1, 0⟩], temperature_2m := [25, 25] } =
      [{ date := 0,
         temp := ([25, 25] : List Rat).sum / ((([25, 25] : List Rat).length : Nat) : Rat),
         city := "Kumasi" }] :=
  transform_single_day "Kumasi"
    { time := [⟨0, 0, 0⟩, ⟨0, 1, 0⟩], temperature_2m := [25, 25] } 0
    (by decide) (by decide) (by decide)

/-- C6. On readings spanning exactly the two distinct calendar dates `d1`
and `d2` (dates read off by truncating each timestamp to its day — clock
time and the offset as given are ignored, with no timezone conversion),
the transform returns exactly two rows: one per date, each carrying the
input city and the mean of only its own date's readings. -/
theorem transform_two_days (city : String) (d : RawData) (d1 d2 : Int)
    (hlen : d.time.length = d.temperature_2m.length)
    (h12 : d1 ≠ d2)
    (hspan : ∀ ts ∈ d.time, truncToDate ts = d1 ∨ truncToDate ts = d2)
    (h1 : ∃ ts ∈ d.time, truncToDate ts = d1)
    (h2 : ∃ ts ∈ d.time, truncToDate ts = d2) :
    (transform_to_daily city d).length = 2 ∧
    (∀ row ∈ transform_to_daily city d,
      row.city = city ∧ (row.date = d1 ∨ row.date = d2) ∧
      row.temp = dayMean (d.time.zip d.temperature_2m) row.date) ∧
    (∃ row ∈ transform_to_daily city d, row.date = d1) ∧
    (∃ row ∈ transform_to_daily city d, row.date = d2) ∧
    (∀ ts : Timestamp, truncToDate ts = truncToDate ⟨ts.day, 0, 0⟩) := by
  have hmapfst : (d.time.zip d.temperature_2m).map Prod.fst = d.time :=
    List.map_fst_zip _ _ (le_of_eq hlen)
  have hl : ((d.time.zip d.temperature_2m).map fun p => truncToDate p.1)
      = d.time.map truncToDate := by
    conv_rhs => rw [← hmapfst, List.map_map]
    rfl
  have hsub : ∀ x ∈ ((d.time.zip d.temperature_2m).map fun p => truncToDate p.1).dedup,
      x = d1 ∨ x = d2 := by
    intro x hx
    rw [List.mem_dedup, hl, List.mem_map] at hx
    obtain ⟨ts, hts, rfl⟩ := hx
    exact hspan ts hts
  have hmem1 : d1 ∈ ((d.time.zip d.temperature_2m).map fun p => truncToDate p.1).dedup := by
    rw [List.mem_dedup, hl, List.mem_map]
    obtain ⟨ts, hts, hts1⟩ := h1
    exact ⟨ts, hts, hts1⟩
  have hmem2 : d2 ∈ ((d.time.zip d.temperature_2m).map fun p => truncToDate p.1).dedup := by
    rw [List.mem_dedup, hl, List.mem_map]
    obtain ⟨ts, hts, hts2⟩ := h2
    exact ⟨ts, hts, hts2⟩
  have hddlen : ((d.time.zip d.temperature_2m).map fun p => truncToDate p.1).dedup.length = 2 :=
    nodup_pair_length (List.nodup_dedup _) h12 hsub hmem1 hmem2
  refine ⟨?_, ?_, ?_, ?_, fun ts => rfl⟩
  · unfold transform_to_daily
    rw [List.length_map, List.length_insertionSort, hddlen]
  · intro row hrow
    unfold transform_to_daily at hrow
    obtain ⟨dt, hdt, rfl⟩ := List.mem_map.mp hrow
    rw [List.mem_insertionSort] at hdt
    exact ⟨rfl, hsub dt hdt, rfl⟩
  · refine ⟨{ date := d1, temp := dayMean (d.time.zip d.temperature_2m) d1, city := city },
      ?_, rfl⟩
    unfold transform_to_daily
    exact List.mem_map_of_mem _ ((List.mem_insertionSort _).mpr hmem1)
  · refine ⟨{ date := d2, temp := dayMean (d.time.zip d.temperature_2m) d2, city := city },
      ?_, rfl⟩
    unfold transform_to_daily
    exact List.mem_map_of_mem _ ((List.mem_insertionSort _).mpr hmem2)

/-- C6 witness: readings on two consecutive days produce exactly two rows. -/
theorem transform_two_days_witness :
    (transform_to_daily "Accra"
      { time := [⟨0, 0, 0⟩, ⟨1, 0, 0⟩], temperature_2m := [20, 30] }).length = 2 :=
  (transform_two_days "Accra"
    { time := [⟨0, 0, 0⟩, ⟨1, 0, 0⟩], temperature_2m := [20, 30] } 0 1
    (by decide) (by decide) (by decide) (by decide) (by decide)).1

/-! ## Facts about the pipeline runner -/

/-- What one city contributes to the run-wide batch: its daily aggregates
when its fetch succeeded with the expected structure, nothing otherwise. -/
def cityContribution (f : String → Option JsonVal) (c : String) : List DailyRow :=
  match f c with
  | some (.withHourly d) => transform_to_daily c d
  | _ => []

/-- The run-wide batch a run is expected to load: each configured city's
contribution, in configuration order. -/
def expectedBatch (cities : List String) (f : String → Option JsonVal) : List DailyRow :=
  (cities.map (cityContribution f)).flatten

theorem collectDaily_all_none (cities : List String) (f : String → Option JsonVal)
    (hall : ∀ c ∈ cities, f c = none) :
    collectDaily cities f = some [] := by
  induction cities with
  | nil => rfl
  | cons c rest ih =>
    have hc := hall c (List.mem_cons_self c rest)
    show (match f c with
      | none => collectDaily rest f
      | some (.withHourly d) => (collectDaily rest f).map (transform_to_daily c d :: ·)
      | some (.withoutHourly _) => none) = some []
    rw [hc]
    exact ih (fun x hx => hall x (List.mem_cons_of_mem c hx))

/-- When no city's payload is ill-formed, the Extract+Transform loop does
not crash, and the frames it collects flatten to exactly the successful
cities' contributions. -/
theorem collectDaily_wf (cities : List String) (f : String → Option JsonVal)
    (hwf : ∀ c ∈ cities, ∀ s, f c ≠ some (.withoutHourly s)) :
    ∃ L, collectDaily cities f = some L ∧ L.flatten = expectedBatch cities f := by
  induction cities with
  | nil => exact ⟨[], rfl, rfl⟩
  | cons c rest ih =>
    obtain ⟨L, hL, hflat⟩ := ih (fun x hx s => hwf x (List.mem_cons_of_mem c hx) s)
    have hshow : collectDaily (c :: rest) f =
        (match f c with
         | none => collectDaily rest f
         | some (.withHourly d) => (collectDaily rest f).map (transform_to_daily c d :: ·)
         | some (.withoutHourly _) => none) := rfl
    cases hfc : f c with
    | none =>
      refine ⟨L, ?_, ?_⟩
      · rw [hshow, hfc]; exact hL
      · simpa [expectedBatch, cityContribution, hfc] using hflat
    | some j =>
      cases j with
      | withHourly d =>
        refine ⟨transform_to_daily c d :: L, ?_, ?_⟩
        · rw [hshow, hfc, hL]; rfl
        · simp only [expectedBatch, List.map_cons, List.flatten_cons,
            cityContribution, hfc, List.flatten]
          rw [hflat]; rfl
      | withoutHourly s => exact absurd hfc (hwf c (List.mem_cons_self c rest) s)

/-! ## Claims about the pipeline runner -/

/-- C4. When every city's payload is well-formed and some city's fetch
fails, the run still completes: the failed city is skipped, every batch
handed to the upsert is exactly the successful cities' aggregates, and the
committed table is the prior table with exactly that batch upserted. -/
theorem run_skips_failed_city (cities : List String) (f : String → Option JsonVal)
    (t : Table)
    (hwf : ∀ c ∈ cities, ∀ s, f c ≠ some (.withoutHourly s))
    (_hfail : ∃ c ∈ cities, f c = none) :
    ((runPipeline cities f t none).status).isCompleted = true ∧
    (∀ b ∈ (runPipeline cities f t none).upsertCalls, b = expectedBatch cities f) ∧
    (runPipeline cities f t none).table = applyBatch t (expectedBatch cities f) := by
  obtain ⟨L, hcol, hflat⟩ := collectDaily_wf cities f hwf
  have hrun : runPipeline cities f t none =
      (match collectDaily cities f with
       | none => { status := .failed, upsertCalls := [], table := t }
       | some all_daily =>
         if all_daily.isEmpty then
           { status := .completed 0, upsertCalls := [], table := t }
         else
           if (loadStep t all_daily.flatten none).errored then
             { status := .failed, upsertCalls := [all_daily.flatten],
               table := (loadStep t all_daily.flatten none).table }
           else
             { status := .completed (loadStep t all_daily.flatten none).rowsCommitted,
               upsertCalls := [all_daily.flatten],
               table := (loadStep t all_daily.flatten none).table }) := rfl
  cases L with
  | nil =>
    have hres : runPipeline cities f t none
        = { status := .completed 0, upsertCalls := [], table := t } := by
      rw [hrun, hcol]
      rfl
    rw [hres]
    refine ⟨rfl, ?_, ?_⟩
    · intro b hb
      exact absurd hb (List.not_mem_nil b)
    · have hexp : expectedBatch cities f = [] := by rw [← hflat]; rfl
      rw [hexp]
      rfl
  | cons x xs =>
    have hres : runPipeline cities f t none
        = { status := .completed (loadStep t ((x :: xs).flatten) none).rowsCommitted,
            upsertCalls := [(x :: xs).flatten],
            table := (loadStep t ((x :: xs).flatten) none).table } := by
      rw [hrun, hcol]
      rfl
    rw [hres]
    refine ⟨rfl, ?_, ?_⟩
    · intro b hb
      rw [List.mem_singleton] at hb
      rw [hb, hflat]
    · rw [show (loadStep t ((x :: xs).flatten) none).table
          = applyBatch t ((x :: xs).flatten) from rfl, hflat]

/-- The fetch oracle of the C4 witness run: Kumasi's fetch fails, the other
two cities return a well-formed payload. -/
def fetchW : String → Option JsonVal := fun c =>
  if c = "Kumasi" then none
  else some (.withHourly { time := [⟨0, 0, 0⟩], temperature_2m := [20] })

/-- C4 witness: with three configured cities and the second city's fetch
failing, the run completes. -/
theorem run_skips_failed_city_witness :
    ((runPipeline ["Accra", "Kumasi", "Takoradi"] fetchW [] none).status).isCompleted
      = true :=
  (run_skips_failed_city ["Accra", "Kumasi", "Takoradi"] fetchW []
    (by intro c hc s; fin_cases hc <;> simp [fetchW])
    ⟨"Kumasi", by simp, by simp [fetchW]⟩).1

/-- C5. If every configured city's fetch fails, the run terminates
successfully as `COMPLETED(0)` — not `FAILED` — the upsert is never
invoked, and the stored table is untouched (whatever the database failure
model would have been). -/
theorem run_all_fetches_fail (cities : List String) (f : String → Option JsonVal)
    (t : Table) (failAt : Option Nat)
    (hall : ∀ c ∈ cities, f c = none) :
    (runPipeline cities f t failAt).status = .completed 0 ∧
    (runPipeline cities f t failAt).upsertCalls = [] ∧
    (runPipeline cities f t failAt).table = t := by
  have hcol := collectDaily_all_none cities f hall
  have hrun : runPipeline cities f t failAt =
      (match collectDaily cities f with
       | none => { status := .failed, upsertCalls := [], table := t }
       | some all_daily =>
         if all_daily.isEmpty then
           { status := .completed 0, upsertCalls := [], table := t }
         else
           if (loadStep t all_daily.flatten failAt).errored then
             { status := .failed, upsertCalls := [all_daily.flatten],
               table := (loadStep t all_daily.flatten failAt).table }
           else
             { status := .completed (loadStep t all_daily.flatten failAt).rowsCommitted,
               upsertCalls := [all_daily.flatten],
               table := (loadStep t all_daily.flatten failAt).table }) := rfl
  rw [hrun, hcol]
  exact ⟨rfl, rfl, rfl⟩

/-- C5 witness: all three cities fail; the run reports `COMPLETED(0)` and
no upsert happens. -/
theorem run_all_fetches_fail_witness :
    (runPipeline ["Accra", "Kumasi", "Takoradi"] (fun _ => none) [] none).status
        = .completed 0 ∧
    (runPipeline ["Accra", "Kumasi", "Takoradi"] (fun _ => none) [] none).upsertCalls
        = [] :=
  ⟨(run_all_fetches_fail ["Accra", "Kumasi", "Takoradi"] (fun _ => none) [] none
      (fun _ _ => rfl)).1,
   (run_all_fetches_fail ["Accra", "Kumasi", "Takoradi"] (fun _ => none) [] none
      (fun _ _ => rfl)).2.1⟩

/-! ## Claims about the Extract step -/

/-- C7. The fetch returns `None` exactly when the API status is not a
success (not 200) or the body cannot be parsed as JSON; in every such case
a diagnostic carrying the city name and the response detail is printed, and
the failure is non-fatal — a run whose only city returns this `None` still
completes (with zero rows). On a 200 response with parseable JSON the
parsed payload is returned. -/
theorem fetch_failure_semantics (city : String) (resp : APIResponse) :
    ((fetch_city_weather city resp).1 = none ↔
      resp.status_code ≠ 200 ∨ resp.parsed = none) ∧
    ((fetch_city_weather city resp).1 = none →
      ∃ m ∈ (fetch_city_weather city resp).2, m.city = city ∧
        (m.detail = resp.text ∨ m.detail = resp.text.take 300)) ∧
    (∀ j, resp.status_code = 200 → resp.parsed = some j →
      (fetch_city_weather city resp).1 = some j) ∧
    ((fetch_city_weather city resp).1 = none → ∀ t : Table,
      (runPipeline [city] (fun c => (fetch_city_weather c resp).1) t none).status
        = .completed 0) := by
  have hskip : (fetch_city_weather city resp).1 = none → ∀ t : Table,
      (runPipeline [city] (fun c => (fetch_city_weather c resp).1) t none).status
        = .completed 0 := by
    intro hnone t
    have hcol : collectDaily [city] (fun c => (fetch_city_weather c resp).1)
        = some [] := collectDaily_all_none _ _
      (by intro c hc; rw [List.mem_singleton] at hc; rw [hc]; exact hnone)
    have hrun : runPipeline [city] (fun c => (fetch_city_weather c resp).1) t none
        = { status := .completed 0, upsertCalls := [], table := t } := by
      unfold runPipeline
      rw [hcol]
      rfl
    rw [hrun]
  by_cases h200 : resp.status_code = 200
  · cases hp : resp.parsed with
    | none =>
      have hfetch : fetch_city_weather city resp
          = (none, [.parseError city (resp.text.take 300)]) := by
        unfold fetch_city_weather
        rw [if_neg (by simp [h200]), hp]
      refine ⟨Iff.intro (fun _ => Or.inr rfl) (fun _ => by rw [hfetch]), ?_, ?_, hskip⟩
      · intro _
        have h2 : (fetch_city_weather city resp).2
            = [.parseError city (resp.text.take 300)] := by rw [hfetch]
        exact ⟨.parseError city (resp.text.take 300),
          h2 ▸ List.mem_singleton_self _,
          LogMsg.city_parseError city (resp.text.take 300),
          Or.inr (LogMsg.detail_parseError city (resp.text.take 300))⟩
      · intro j _ hj
        exact Option.noConfusion hj
    | some j0 =>
      have hfetch : fetch_city_weather city resp = (some j0, []) := by
        unfold fetch_city_weather
        rw [if_neg (by simp [h200]), hp]
      refine ⟨?_, ?_, ?_, hskip⟩
      · refine Iff.intro (fun hnone => ?_) (fun hor => ?_)
        · rw [hfetch] at hnone
          exact Option.noConfusion hnone
        · rcases hor with hne | hpn
          · exact absurd h200 hne
          · exact Option.noConfusion hpn
      · intro hnone
        rw [hfetch] at hnone
        exact Option.noConfusion hnone
      · intro j _ hj
        rw [hfetch]
        exact hj
  · have hfetch : fetch_city_weather city resp = (none, [.apiError city resp.text]) := by
      unfold fetch_city_weather
      rw [if_pos h200]
    refine ⟨Iff.intro (fun _ => Or.inl h200) (fun _ => by rw [hfetch]), ?_, ?_, hskip⟩
    · intro _
      have h2 : (fetch_city_weather city resp).2
          = [.apiError city resp.text] := by rw [hfetch]
      exact ⟨.apiError city resp.text,
        h2 ▸ List.mem_singleton_self _,
        LogMsg.city_apiError city resp.text,
        Or.inl (LogMsg.detail_apiError city resp.text)⟩
    · intro j hj
      exact absurd hj h200

/-- C7 witness: a 500 response fetch for Accra returns `None` and prints a
diagnostic naming Accra with the response text. -/
theorem fetch_failure_semantics_witness :
    ∃ m ∈ (fetch_city_weather "Accra"
        { status_code := 500, text := "boom", parsed := none }).2,
      m.city = "Accra" ∧
        (m.detail = "boom" ∨ m.detail = ("boom" : String).take 300) :=
  (fetch_failure_semantics "Accra"
    { status_code := 500, text := "boom", parsed := none }).2.1 (by decide)

/-- C10. Only status code exactly 200 counts as success: any other code —
including other 2xx codes such as 201 and 204 — yields `None`; and a 200
response whose body parsed as JSON is returned as-is, with no check that
the expected `hourly` arrays are present (a body without them is returned
too). -/
theorem fetch_only_200_success (city : String) (resp : APIResponse) :
    (resp.status_code ≠ 200 → (fetch_city_weather city resp).1 = none) ∧
    (resp.status_code = 201 → (fetch_city_weather city resp).1 = none) ∧
    (resp.status_code = 204 → (fetch_city_weather city resp).1 = none) ∧
    (resp.status_code = 200 → ∀ j, resp.parsed = some j →
      (fetch_city_weather city resp).1 = some j) ∧
    (resp.status_code = 200 → ∀ s, resp.parsed = some (.withoutHourly s) →
      (fetch_city_weather city resp).1 = some (.withoutHourly s)) := by
  refine ⟨?_, ?_, ?_, ?_, ?_⟩
  · intro h
    unfold fetch_city_weather
    rw [if_pos h]
  · intro h
    unfold fetch_city_weather
    rw [if_pos (by rw [h]; decide)]
  · intro h
    unfold fetch_city_weather
    rw [if_pos (by rw [h]; decide)]
  · intro h j hj
    unfold fetch_city_weather
    rw [if_neg (by simp [h]), hj]
  · intro h s hs
    unfold fetch_city_weather
    rw [if_neg (by simp [h]), hs]

/-- C10 witness: a 201 response is rejected even though it is 2xx, and a
200 response whose JSON lacks the `hourly` arrays is returned unchecked. -/
theorem fetch_only_200_success_witness :
    (fetch_city_weather "Accra"
        { status_code := 201, text := "created", parsed := some (.withoutHourly "{}") }).1
      = none ∧
    (fetch_city_weather "Accra"
        { status_code := 200, text := "{}", parsed := some (.withoutHourly "{}") }).1
      = some (.withoutHourly "{}") :=
  ⟨(fetch_only_200_success "Accra"
      { status_code := 201, text := "created", parsed := some (.withoutHourly "{}") }).2.1
      rfl,
   (fetch_only_200_success "Accra"
      { status_code := 200, text := "{}", parsed := some (.withoutHourly "{}") }).2.2.2.2
      rfl "{}" rfl⟩

end WeatherETL
